import Mathlib

/-!
Shallow embedding of the pix-totalizer bot's usage-gating / subscription engine
and its day-scoped transaction-ledger operations.

Modelling conventions:
* Timestamps are integers (milliseconds since the epoch); the store's
  `TIMESTAMPTZ` comparisons become integer comparisons.
* JS `Date.setDate(getDate() + n)` (calendar-day addition) is modelled as
  adding `n * 86400000` ms, and `setHours(0,0,0,0)` (local midnight) is
  modelled through an environment carrying `now` and the local timezone
  offset in ms.
* Monetary amounts (`DECIMAL(12,2)` / JS numbers) are modelled as `Rat`.
* The external relational store is modelled as in-memory lists with
  store-assigned increasing ids; a `SELECT ... ORDER BY created_at` is
  modelled as a stable insertion sort on the timestamp.
-/

namespace PixTotalizer

/-- Milliseconds in one day. -/
def dayMs : Int := 86400000

/-- `Math.ceil (a / b)` for integer `a` and positive integer `b`. -/
def ceilDiv (a b : Int) : Int := -((-a).fdiv b)

/-- Evaluation environment: current wall-clock time and the local timezone
offset, both in milliseconds. -/
structure Env where
  now : Int
  tzOffset : Int
deriving DecidableEq, Repr

/-- `getStartOfTodayISO` from `database.ts`: local midnight of the current day,
expressed back as an absolute timestamp. -/
def getStartOfTodayISO (env : Env) : Int :=
  ((env.now + env.tzOffset).fdiv dayMs) * dayMs - env.tzOffset

/-- `PlanType` from `subscription.ts`. -/
inductive PlanType where
  | free
  | basico
  | pro
  | ultra
deriving DecidableEq, Repr

/-- `PlanInfo` from `subscription.ts` (the `name` and `description` fields are
display-only and omitted). -/
structure PlanInfo where
  displayName : String
  price : Int
  limit : Option Int
deriving DecidableEq, Repr

/-- The `PLANS` table from `subscription.ts`. -/
def PLANS : PlanType → PlanInfo
  | .free => ⟨"Grátis", 0, some 5⟩
  | .basico => ⟨"Básico", 197, some 1000⟩
  | .pro => ⟨"Pro", 349, some 3500⟩
  | .ultra => ⟨"Ultra", 697, none⟩

/-- `GRACE_PERIOD_DAYS` from `subscription.ts`. -/
def GRACE_PERIOD_DAYS : Int := 3

/-- A row of the `subscriptions` table. -/
structure Subscription where
  id : Int
  chat_id : Int
  plan : PlanType
  transactions_used : Int
  period_start : Int
  period_end : Option Int
  created_at : Int
deriving DecidableEq, Repr

/-- A row of the `transactions` table. -/
structure Txn where
  id : Int
  chat_id : Int
  amount : Rat
  bank_detected : Option String
  client_name : Option String
  telegram_file_id : String
  raw_response : String
  created_at : Int
deriving DecidableEq, Repr

/-- The database state: the two tables the core logic touches, plus the
store-assigned id counters. -/
structure DB where
  transactions : List Txn
  subscriptions : List Subscription
  nextTxnId : Int
  nextSubId : Int
deriving DecidableEq, Repr

/-- Point lookup of a chat's subscription row (`.eq("chat_id", ...).single()`;
`chat_id` is UNIQUE in the schema). -/
def findSub (db : DB) (chatId : Int) : Option Subscription :=
  db.subscriptions.find? (fun s => decide (s.chat_id = chatId))

/-- Row filter for "this chat's transactions created since local midnight". -/
def todayPred (env : Env) (chatId : Int) (t : Txn) : Bool :=
  decide (t.chat_id = chatId) && decide (getStartOfTodayISO env ≤ t.created_at)

/-- `created_at` ascending — the order used by `getTodayTransactions`. -/
def ascByTime (a b : Txn) : Prop := a.created_at ≤ b.created_at

/-- `created_at` descending — the order used by `updateLastTransactionAmount`. -/
def descByTime (a b : Txn) : Prop := b.created_at ≤ a.created_at

instance : DecidableRel ascByTime := fun a b => inferInstanceAs (Decidable (a.created_at ≤ b.created_at))

instance : DecidableRel descByTime := fun a b => inferInstanceAs (Decidable (b.created_at ≤ a.created_at))

/-- `saveTransaction` from `database.ts`: insert a row, returning the stored
row with its store-assigned id and timestamp. -/
def saveTransaction (db : DB) (env : Env) (chatId : Int) (amount : Rat)
    (bankDetected clientName : Option String)
    (telegramFileId rawResponse : String) : DB × Txn :=
  let t : Txn :=
    { id := db.nextTxnId
      chat_id := chatId
      amount := amount
      bank_detected := bankDetected
      client_name := clientName
      telegram_file_id := telegramFileId
      raw_response := rawResponse
      created_at := env.now }
  ({ db with transactions := db.transactions ++ [t], nextTxnId := db.nextTxnId + 1 }, t)

/-- `isDuplicate` from `database.ts`. -/
def isDuplicate (db : DB) (chatId : Int) (telegramFileId : String) : Bool :=
  db.transactions.any
    (fun t => decide (t.chat_id = chatId) && decide (t.telegram_file_id = telegramFileId))

/-- `getTodayTransactions` from `database.ts`: today's rows for the chat,
ascending by creation time. -/
def getTodayTransactions (db : DB) (env : Env) (chatId : Int) : List Txn :=
  List.insertionSort ascByTime (db.transactions.filter (todayPred env chatId))

/-- `clearTodayTransactions` from `database.ts`. -/
def clearTodayTransactions (db : DB) (env : Env) (chatId : Int) : DB × Int :=
  let removed := db.transactions.filter (todayPred env chatId)
  ({ db with transactions := db.transactions.filter (fun t => !todayPred env chatId t) },
   (removed.length : Int))

/-- `deleteTransactionByIndex` from `database.ts`: list today's rows ascending,
pick the 1-based `index` (or the last row when no index is given), and delete
that row by id. -/
def deleteTransactionByIndex (db : DB) (env : Env) (chatId : Int)
    (index : Option Int) : DB × Option Txn :=
  let transactions := getTodayTransactions db env chatId
  if transactions.isEmpty then (db, none)
  else
    let targetIndex : Int :=
      match index with
      | none => (transactions.length : Int) - 1
      | some i => i - 1
    if targetIndex < 0 ∨ (transactions.length : Int) ≤ targetIndex then (db, none)
    else
      match transactions.get? targetIndex.toNat with
      | none => (db, none)
      | some targetTx =>
        ({ db with transactions := db.transactions.filter (fun t => decide (¬ t.id = targetTx.id)) },
         some targetTx)

/-- `updateLastTransactionAmount` from `database.ts`: fetch today's rows
descending by time, take the first, and overwrite its amount by id. -/
def updateLastTransactionAmount (db : DB) (env : Env) (chatId : Int)
    (newAmount : Rat) : DB × Option Txn :=
  let todayDesc := List.insertionSort descByTime (db.transactions.filter (todayPred env chatId))
  match todayDesc.head? with
  | none => (db, none)
  | some lastTx =>
    ({ db with transactions :=
        db.transactions.map (fun t => if t.id = lastTx.id then { t with amount := newAmount } else t) },
     some { lastTx with amount := newAmount })

/-- `getSubscription` + lazy creation: `getOrCreateSubscription` from
`subscription.ts`. A missing row is inserted with the schema defaults
(plan `free`, usage 0, `period_start = NOW()`, null `period_end`). -/
def getOrCreateSubscription (db : DB) (env : Env) (chatId : Int) : DB × Subscription :=
  match findSub db chatId with
  | some s => (db, s)
  | none =>
    let s : Subscription :=
      { id := db.nextSubId
        chat_id := chatId
        plan := .free
        transactions_used := 0
        period_start := env.now
        period_end := none
        created_at := env.now }
    ({ db with subscriptions := db.subscriptions ++ [s], nextSubId := db.nextSubId + 1 }, s)

/-- `isSubscriptionExpired` from `subscription.ts`: past `period_end` plus the
3-day grace period. -/
def isSubscriptionExpired (env : Env) (sub : Subscription) : Bool :=
  if sub.plan = .free then false
  else
    match sub.period_end with
    | none => false
    | some pe => decide (pe + GRACE_PERIOD_DAYS * dayMs < env.now)

/-- `isInGracePeriod` from `subscription.ts`. -/
def isInGracePeriod (env : Env) (sub : Subscription) : Bool :=
  if sub.plan = .free then false
  else
    match sub.period_end with
    | none => false
    | some pe =>
      decide (pe < env.now) && decide (env.now ≤ pe + GRACE_PERIOD_DAYS * dayMs)

/-- `getDaysUntilExpiry` from `subscription.ts`: ceiling of
`(period_end - now)` in days; `none` models the TS `null`. -/
def getDaysUntilExpiry (env : Env) (sub : Subscription) : Option Int :=
  if sub.plan = .free then none
  else
    match sub.period_end with
    | none => none
    | some pe => some (ceilDiv (pe - env.now) dayMs)

/-- `downgradeToFree` from `subscription.ts`: rewrite the chat's row to plan
`free`, usage 0, null `period_end`. -/
def downgradeToFree (db : DB) (chatId : Int) : DB :=
  { db with subscriptions :=
      db.subscriptions.map (fun s =>
        if s.chat_id = chatId then { s with plan := .free, transactions_used := 0, period_end := none }
        else s) }

/-- `getTodayTransactionCount` from `subscription.ts`: live count of the
chat's ledger rows created since local midnight. -/
def getTodayTransactionCount (db : DB) (env : Env) (chatId : Int) : Int :=
  ((db.transactions.filter (todayPred env chatId)).length : Int)

/-- `incrementUsage` from `subscription.ts`: bump the stored counter, but only
for paid plans. -/
def incrementUsage (db : DB) (env : Env) (chatId : Int) : DB :=
  let (db, sub) := getOrCreateSubscription db env chatId
  if sub.plan = .free then db
  else
    { db with subscriptions :=
        db.subscriptions.map (fun s =>
          if s.chat_id = chatId then { s with transactions_used := sub.transactions_used + 1 }
          else s) }

/-- The user-visible messages `canProcess` can attach to a decision, with
their numeric/display arguments. -/
inductive BotMessage where
  | expiredDowngraded (planDisplay : String)
  | graceWarning (graceDaysLeft : Int)
  | dailyLimitReached (used limit : Int)
  | monthlyLimitReached (used limit : Int)
deriving DecidableEq, Repr

/-- `CanProcessResult` from `subscription.ts`. Optional TS fields are
`Option`s; `daysUntilExpiry : number | null` (itself optional) becomes
`Option (Option Int)`. -/
structure CanProcessResult where
  allowed : Bool
  plan : PlanType
  used : Int
  limit : Option Int
  message : Option BotMessage := none
  expired : Option Bool := none
  inGracePeriod : Option Bool := none
  daysUntilExpiry : Option (Option Int) := none
deriving DecidableEq, Repr

/-- The fall-through tail of `canProcess` (reached when the plan is free, or
paid but neither expired nor in grace): ultra is unlimited, free checks the
live daily count, capped paid plans check the stored monthly counter. -/
def canProcessTail (db : DB) (env : Env) (chatId : Int) (sub : Subscription) :
    DB × CanProcessResult :=
  let plan := sub.plan
  let daysUntilExpiry := getDaysUntilExpiry env sub
  if plan = .ultra then
    (db, { allowed := true, plan := plan, used := sub.transactions_used, limit := none
           daysUntilExpiry := some daysUntilExpiry })
  else if plan = .free then
    let todayCount := getTodayTransactionCount db env chatId
    let dailyLimit := (PLANS plan).limit.getD 0
    if dailyLimit ≤ todayCount then
      (db, { allowed := false, plan := plan, used := todayCount, limit := some dailyLimit
             message := some (.dailyLimitReached todayCount dailyLimit) })
    else
      (db, { allowed := true, plan := plan, used := todayCount, limit := some dailyLimit })
  else
    let monthlyLimit := (PLANS plan).limit.getD 0
    if monthlyLimit ≤ sub.transactions_used then
      (db, { allowed := false, plan := plan, used := sub.transactions_used
             limit := some monthlyLimit, daysUntilExpiry := some daysUntilExpiry
             message := some (.monthlyLimitReached sub.transactions_used monthlyLimit) })
    else
      (db, { allowed := true, plan := plan, used := sub.transactions_used
             limit := some monthlyLimit, daysUntilExpiry := some daysUntilExpiry })

/-- `canProcess` from `subscription.ts`: the usage gate. Loads (or lazily
creates) the subscription; for paid plans first handles full expiry (with the
downgrade side effect) and the grace period, then falls through to the
per-tier limit rules. -/
def canProcess (db : DB) (env : Env) (chatId : Int) : DB × CanProcessResult :=
  let (db0, sub) := getOrCreateSubscription db env chatId
  let plan := sub.plan
  let daysUntilExpiry := getDaysUntilExpiry env sub
  if plan = .free then canProcessTail db0 env chatId sub
  else if isSubscriptionExpired env sub then
    let db1 := downgradeToFree db0 chatId
    let todayCount := getTodayTransactionCount db1 env chatId
    let freeLimit := (PLANS .free).limit.getD 0
    (db1, { allowed := decide (todayCount < freeLimit), plan := .free, used := todayCount
            limit := some freeLimit, expired := some true
            message := some (.expiredDowngraded (PLANS plan).displayName) })
  else if isInGracePeriod env sub then
    let graceDaysLeft := GRACE_PERIOD_DAYS + daysUntilExpiry.getD 0
    if plan = .ultra then
      (db0, { allowed := true, plan := plan, used := sub.transactions_used, limit := none
              inGracePeriod := some true, daysUntilExpiry := some daysUntilExpiry
              message := some (.graceWarning graceDaysLeft) })
    else
      let monthlyLimit := (PLANS plan).limit.getD 0
      (db0, { allowed := decide (sub.transactions_used < monthlyLimit), plan := plan
              used := sub.transactions_used, limit := some monthlyLimit
              inGracePeriod := some true, daysUntilExpiry := some daysUntilExpiry
              message := some (.graceWarning graceDaysLeft) })
  else canProcessTail db0 env chatId sub

/-- `activateSubscription` from `subscription.ts`: upsert plan with usage 0,
period start now, period end one month (modelled as 30 days) later. -/
def activateSubscription (db : DB) (env : Env) (chatId : Int) (plan : PlanType) : DB :=
  match findSub db chatId with
  | some _ =>
    { db with subscriptions :=
        db.subscriptions.map (fun s =>
          if s.chat_id = chatId then
            { s with plan := plan, transactions_used := 0, period_start := env.now,
                     period_end := some (env.now + 30 * dayMs) }
          else s) }
  | none =>
    let s : Subscription :=
      { id := db.nextSubId, chat_id := chatId, plan := plan, transactions_used := 0,
        period_start := env.now, period_end := some (env.now + 30 * dayMs),
        created_at := env.now }
    { db with subscriptions := db.subscriptions ++ [s], nextSubId := db.nextSubId + 1 }

/-- `resetMonthlyUsage` from `subscription.ts`: for every non-free row, set
usage to 0 and period start to now; return the number of rows updated. -/
def resetMonthlyUsage (db : DB) (env : Env) : DB × Int :=
  ({ db with subscriptions :=
      db.subscriptions.map (fun s =>
        if s.plan = .free then s
        else { s with transactions_used := 0, period_start := env.now }) },
   ((db.subscriptions.filter (fun s => decide (¬ s.plan = .free))).length : Int))

/-- `ExtractionResult` from `vision.ts` (the `error` text field is omitted; a
missing amount already encodes extraction failure). -/
structure ExtractionResult where
  amount : Option Rat
  bank : Option String
  clientName : Option String
  rawResponse : String
deriving DecidableEq, Repr

/-- Terminal outcome of one run of the receipt pipeline. -/
inductive PipelineOutcome where
  | rejectedByGate (check : CanProcessResult)
  | rejectedDuplicate
  | extractionFailed
  | saved (t : Txn)
deriving DecidableEq, Repr

/-- `processImage` / `processDocument` from `bot.ts` (both orchestrate the
same sequence): gate check (`canProcess`) → duplicate check → OCR result →
`saveTransaction` → `incrementUsage`. The OCR call is external; its result is
passed in. -/
def processImage (db : DB) (env : Env) (chatId : Int) (fileId : String)
    (ocr : ExtractionResult) : DB × PipelineOutcome :=
  let (db1, check) := canProcess db env chatId
  if check.allowed = false then (db1, .rejectedByGate check)
  else if isDuplicate db1 chatId fileId then (db1, .rejectedDuplicate)
  else
    match ocr.amount with
    | none => (db1, .extractionFailed)
    | some a =>
      let (db2, t) := saveTransaction db1 env chatId a ocr.bank ocr.clientName fileId ocr.rawResponse
      let db3 := incrementUsage db2 env chatId
      (db3, .saved t)

/-- Terminal outcome of the `/editar` command handler. -/
inductive EditOutcome where
  | invalidAmount
  | notFound
  | edited (t : Txn)
deriving DecidableEq, Repr

/-- The `/editar` command handler from `bot.ts`, after argument parsing: the
parsed amount is `none` when `parseFloat` gave `NaN`; non-positive amounts are
rejected before any store access. -/
def editarCommand (db : DB) (env : Env) (chatId : Int)
    (parsedAmount : Option Rat) : DB × EditOutcome :=
  match parsedAmount with
  | none => (db, .invalidAmount)
  | some newAmount =>
    if newAmount ≤ 0 then (db, .invalidAmount)
    else
      match updateLastTransactionAmount db env chatId newAmount with
      | (db1, some t) => (db1, .edited t)
      | (_, none) => (db, .notFound)

/-! ### Webhook signature validation (`payments.ts`)

Header values are modelled as `List Char` so that the JS `split` calls reduce
in the kernel; `crypto.createHmac("sha256", ...)` is an external library call
and is passed in as an opaque digest function. -/

/-- JS `String.prototype.split` with a one-character separator. -/
def splitOnChar (sep : Char) : List Char → List (List Char)
  | [] => [[]]
  | c :: cs =>
    let rest := splitOnChar sep cs
    if c = sep then [] :: rest
    else
      match rest with
      | r :: rs => (c :: r) :: rs
      | [] => [[c]]

/-- The `x-signature` header parse from `validateWebhookSignature`: split on
`,`, split each part on `=`, keep pairs whose key and value are both
non-empty (JS truthiness). Later assignments to the same key win. -/
def parseSignatureHeader (xSignature : List Char) : List (List Char × List Char) :=
  (splitOnChar ',' xSignature).foldl
    (fun acc part =>
      match splitOnChar '=' part with
      | key :: value :: _ =>
        if key ≠ [] ∧ value ≠ [] then acc ++ [(key, value)] else acc
      | _ => acc)
    []

/-- Last-wins key lookup, modelling the JS object built by the parse loop. -/
def lookupLast (parts : List (List Char × List Char)) (key : List Char) :
    Option (List Char) :=
  ((parts.filter (fun p => decide (p.1 = key))).getLast?).map (fun p => p.2)

/-- UTF-8 byte length of a character list (`Buffer.from(s).length`). -/
def utf8Len (s : List Char) : Nat := (s.map Char.utf8Size).sum

/-- Node's `crypto.timingSafeEqual` on UTF-8 buffers: throws (`.error`) when
the byte lengths differ, otherwise compares contents. -/
def timingSafeEqual (a b : List Char) : Except Unit Bool :=
  if utf8Len a = utf8Len b then .ok (decide (a = b)) else .error ()

/-- The expected-signature manifest `id:<dataId>;request-id:<requestId>;ts:<ts>;`. -/
def signatureManifest (dataId xRequestId ts : List Char) : List Char :=
  "id:".data ++ dataId ++ ";request-id:".data ++ xRequestId ++ ";ts:".data ++ ts ++ ";".data

/-- `validateWebhookSignature` from `payments.ts`. `hmacSha256Hex secret msg`
stands for the external HMAC-SHA256 hex digest. `.error ()` models an
uncaught exception. -/
def validateWebhookSignature (hmacSha256Hex : List Char → List Char → List Char)
    (secret : Option (List Char)) (xSignature xRequestId : Option (List Char))
    (dataId : List Char) : Except Unit Bool :=
  match secret with
  | none => .ok true
  | some sec =>
    if sec = [] then .ok true
    else
      match xSignature, xRequestId with
      | some xSig, some xReq =>
        if xSig = [] ∨ xReq = [] then .ok false
        else
          let parts := parseSignatureHeader xSig
          match lookupLast parts "ts".data, lookupLast parts "v1".data with
          | some ts, some v1 =>
            if ts = [] ∨ v1 = [] then .ok false
            else
              let expected := hmacSha256Hex sec (signatureManifest dataId xReq ts)
              timingSafeEqual v1 expected
          | _, _ => .ok false
      | _, _ => .ok false

/-! ### Helper lemmas -/

theorem getOrCreateSubscription_of_found {db : DB} {env : Env} {chat : Int} {sub : Subscription}
    (hfind : findSub db chat = some sub) :
    getOrCreateSubscription db env chat = (db, sub) := by
  unfold getOrCreateSubscription
  rw [hfind]

theorem findSub_downgradeToFree (db : DB) (chat : Int) :
    findSub (downgradeToFree db chat) chat =
      (findSub db chat).map
        (fun s => { s with plan := .free, transactions_used := 0, period_end := none }) := by
  unfold findSub downgradeToFree
  induction db.subscriptions with
  | nil => rfl
  | cons a l ih =>
    by_cases h : a.chat_id = chat
    · simp [List.find?_cons, h]
    · simpa [List.find?_cons, h] using ih

theorem canProcess_free_fields (db : DB) (env : Env) (chat : Int) (s : Subscription)
    (hfind : findSub db chat = some s) (hplan : s.plan = .free) :
    (canProcess db env chat).1 = db
    ∧ (canProcess db env chat).2.plan = .free
    ∧ (canProcess db env chat).2.expired = none
    ∧ (canProcess db env chat).2.allowed = decide (getTodayTransactionCount db env chat < 5)
    ∧ (canProcess db env chat).2.used = getTodayTransactionCount db env chat := by
  have hget : getOrCreateSubscription db env chat = (db, s) :=
    getOrCreateSubscription_of_found hfind
  unfold canProcess
  rw [hget]
  simp only [hplan, if_pos rfl]
  unfold canProcessTail
  rw [hplan]
  by_cases h5 : (5 : Int) ≤ getTodayTransactionCount db env chat
  · have hlt : ¬ getTodayTransactionCount db env chat < 5 := not_lt.mpr h5
    simp [PLANS, h5, hlt]
  · have hlt : getTodayTransactionCount db env chat < 5 := lt_of_not_le h5
    simp [PLANS, h5, hlt]

/-! ### Claim theorems -/

/-- C1: for a subscription on a paid plan with a non-null period end, when
`now` is past `period end + 3 days`, `canProcess` rewrites the stored row to
plan `free` / usage `0` / null period end, leaves the ledger untouched, and
returns plan `free`, `expired = true`, with `allowed` true iff the live count
of the chat's ledger rows since local midnight is `< 5` (and `used` equal to
that count); a second call immediately after returns plan `free` with no
`expired` flag. -/
theorem canProcess_expired_downgrades (db : DB) (env : Env) (chat : Int)
    (sub : Subscription) (pe : Int)
    (hfind : findSub db chat = some sub)
    (hplan : sub.plan ≠ .free)
    (hpe : sub.period_end = some pe)
    (hexp : pe + 3 * dayMs < env.now) :
    (canProcess db env chat).1.transactions = db.transactions
    ∧ findSub (canProcess db env chat).1 chat =
        some { sub with plan := .free, transactions_used := 0, period_end := none }
    ∧ (canProcess db env chat).2.plan = .free
    ∧ (canProcess db env chat).2.expired = some true
    ∧ (canProcess db env chat).2.allowed = decide (getTodayTransactionCount db env chat < 5)
    ∧ (canProcess db env chat).2.used = getTodayTransactionCount db env chat
    ∧ (canProcess (canProcess db env chat).1 env chat).2.plan = .free
    ∧ (canProcess (canProcess db env chat).1 env chat).2.expired = none := by
  have hget : getOrCreateSubscription db env chat = (db, sub) :=
    getOrCreateSubscription_of_found hfind
  have hexpB : isSubscriptionExpired env sub = true := by
    unfold isSubscriptionExpired
    rw [hpe]
    simp [hplan, GRACE_PERIOD_DAYS]
    linarith
  have hcnt : getTodayTransactionCount (downgradeToFree db chat) env chat
      = getTodayTransactionCount db env chat := rfl
  have hmain : canProcess db env chat =
      (downgradeToFree db chat,
       { allowed := decide (getTodayTransactionCount db env chat < 5), plan := .free,
         used := getTodayTransactionCount db env chat, limit := some 5,
         expired := some true,
         message := some (.expiredDowngraded (PLANS sub.plan).displayName) }) := by
    unfold canProcess
    rw [hget]
    simp [hplan, hexpB, PLANS, hcnt]
  have hfind' : findSub (canProcess db env chat).1 chat =
      some { sub with plan := .free, transactions_used := 0, period_end := none } := by
    rw [hmain]
    rw [findSub_downgradeToFree, hfind]
    rfl
  have hget' : getOrCreateSubscription (canProcess db env chat).1 env chat =
      ((canProcess db env chat).1,
       { sub with plan := .free, transactions_used := 0, period_end := none }) :=
    getOrCreateSubscription_of_found hfind'
  have hsecond := canProcess_free_fields (canProcess db env chat).1 env chat
    { sub with plan := .free, transactions_used := 0, period_end := none } hfind' rfl
  exact ⟨by rw [hmain]; rfl, hfind', by rw [hmain], by rw [hmain], by rw [hmain],
    by rw [hmain], hsecond.2.1, hsecond.2.2.1⟩

/-! ### Witness fixtures: small concrete states -/

/-- A basico subscription for chat 7 whose period ended 40 days before `envW.now`. -/
def subW : Subscription :=
  { id := 1, chat_id := 7, plan := .basico, transactions_used := 12,
    period_start := 0, period_end := some (60 * dayMs), created_at := 0 }

/-- One ledger row for chat 7 created shortly after local midnight of day 100. -/
def txnW : Txn :=
  { id := 3, chat_id := 7, amount := 10, bank_detected := none, client_name := none,
    telegram_file_id := "f", raw_response := "r", created_at := 100 * dayMs + 5 }

def dbW : DB :=
  { transactions := [txnW], subscriptions := [subW], nextTxnId := 10, nextSubId := 2 }

/-- Wall clock inside day 100, UTC locale. -/
def envW : Env := { now := 100 * dayMs + 500, tzOffset := 0 }

/-- A pro subscription for chat 7 whose period ended one day before `envW.now`
(inside the 3-day grace window). -/
def subG : Subscription :=
  { id := 1, chat_id := 7, plan := .pro, transactions_used := 12,
    period_start := 0, period_end := some (99 * dayMs), created_at := 0 }

def dbG : DB :=
  { transactions := [txnW], subscriptions := [subG], nextTxnId := 10, nextSubId := 2 }

/-- Witness for `canProcess_expired_downgrades` at `dbW` / `envW`. -/
theorem canProcess_expired_downgrades_witness :
    (canProcess dbW envW 7).2.plan = .free
    ∧ (canProcess dbW envW 7).2.expired = some true
    ∧ (canProcess (canProcess dbW envW 7).1 envW 7).2.expired = none := by
  have h := canProcess_expired_downgrades dbW envW 7 subW (60 * dayMs)
    (by decide) (by decide) rfl (by decide)
  exact ⟨h.2.2.1, h.2.2.2.1, h.2.2.2.2.2.2.2⟩

/-- C2: for a paid subscription whose period end is past but within the 3-day
grace window, `canProcess` leaves the store unchanged and returns
`inGracePeriod = true`, `daysUntilExpiry = ceil((periodEnd − now)/day)`, a
grace message carrying `3 + daysUntilExpiry` remaining days, and `allowed`
per the tier's normal limit rule (`used < 1000` for basico, `used < 3500`
for pro, always true for ultra). -/
theorem canProcess_grace_period (db : DB) (env : Env) (chat : Int)
    (sub : Subscription) (pe : Int)
    (hfind : findSub db chat = some sub)
    (hplan : sub.plan ≠ .free)
    (hpe : sub.period_end = some pe)
    (h1 : pe < env.now) (h2 : env.now ≤ pe + 3 * dayMs) :
    (canProcess db env chat).1 = db
    ∧ (canProcess db env chat).2.inGracePeriod = some true
    ∧ (canProcess db env chat).2.daysUntilExpiry = some (some (ceilDiv (pe - env.now) dayMs))
    ∧ (canProcess db env chat).2.message =
        some (.graceWarning (3 + ceilDiv (pe - env.now) dayMs))
    ∧ (sub.plan = .ultra → (canProcess db env chat).2.allowed = true)
    ∧ (sub.plan = .basico →
        (canProcess db env chat).2.allowed = decide (sub.transactions_used < 1000))
    ∧ (sub.plan = .pro →
        (canProcess db env chat).2.allowed = decide (sub.transactions_used < 3500)) := by
  have hget : getOrCreateSubscription db env chat = (db, sub) :=
    getOrCreateSubscription_of_found hfind
  have hexpB : isSubscriptionExpired env sub = false := by
    unfold isSubscriptionExpired
    rw [hpe]
    simp [hplan, GRACE_PERIOD_DAYS]
    linarith
  have hgrB : isInGracePeriod env sub = true := by
    unfold isInGracePeriod
    rw [hpe]
    simp [hplan, GRACE_PERIOD_DAYS]
    exact ⟨h1, h2⟩
  have hd : getDaysUntilExpiry env sub = some (ceilDiv (pe - env.now) dayMs) := by
    unfold getDaysUntilExpiry
    rw [hpe]
    simp [hplan]
  cases hp : sub.plan with
  | free => exact absurd hp hplan
  | basico =>
    unfold canProcess
    rw [hget]
    simp [hp, hexpB, hgrB, hd, GRACE_PERIOD_DAYS, PLANS]
  | pro =>
    unfold canProcess
    rw [hget]
    simp [hp, hexpB, hgrB, hd, GRACE_PERIOD_DAYS, PLANS]
  | ultra =>
    unfold canProcess
    rw [hget]
    simp [hp, hexpB, hgrB, hd, GRACE_PERIOD_DAYS, PLANS]

/-- Witness for `canProcess_grace_period` at `dbG` / `envW`: one day past the
period end, `daysUntilExpiry = -1`, two grace days remain, and the pro cap
rule applies (`12 < 3500`). -/
theorem canProcess_grace_period_witness :
    (canProcess dbG envW 7).2.inGracePeriod = some true
    ∧ (canProcess dbG envW 7).2.daysUntilExpiry = some (some (-1))
    ∧ (canProcess dbG envW 7).2.message = some (.graceWarning 2)
    ∧ (canProcess dbG envW 7).2.allowed = true := by
  have h := canProcess_grace_period dbG envW 7 subG (99 * dayMs)
    (by decide) (by decide) rfl (by decide) (by decide)
  refine ⟨h.2.1, ?_, ?_, ?_⟩
  · have := h.2.2.1
    rwa [show ceilDiv (99 * dayMs - envW.now) dayMs = -1 by decide] at this
  · have := h.2.2.2.1
    rwa [show (3 : Int) + ceilDiv (99 * dayMs - envW.now) dayMs = 2 by decide] at this
  · have := h.2.2.2.2.2.2 rfl
    rwa [show decide (subG.transactions_used < 3500) = true by decide] at this

theorem canProcess_free_eq (db : DB) (env : Env) (chat : Int) (s : Subscription)
    (hfind : findSub db chat = some s) (hplan : s.plan = .free) :
    canProcess db env chat = (db,
      if 5 ≤ getTodayTransactionCount db env chat then
        { allowed := false, plan := .free, used := getTodayTransactionCount db env chat,
          limit := some 5,
          message := some (.dailyLimitReached (getTodayTransactionCount db env chat) 5) }
      else
        { allowed := true, plan := .free, used := getTodayTransactionCount db env chat,
          limit := some 5 }) := by
  have hget : getOrCreateSubscription db env chat = (db, s) :=
    getOrCreateSubscription_of_found hfind
  unfold canProcess
  rw [hget]
  simp only [hplan, if_pos rfl]
  unfold canProcessTail
  rw [hplan]
  by_cases h5 : (5 : Int) ≤ getTodayTransactionCount db env chat
  · simp [PLANS, h5]
  · simp [PLANS, h5]

/-- Overwrite the stored usage counter of a chat's subscription row, leaving
everything else (in particular the ledger) intact; used to state that the
free-tier decision never reads that counter. -/
def withStoredUsage (db : DB) (chat : Int) (v : Int) : DB :=
  { db with subscriptions :=
      db.subscriptions.map (fun s =>
        if s.chat_id = chat then { s with transactions_used := v } else s) }

theorem findSub_withStoredUsage (db : DB) (chat : Int) (v : Int) :
    findSub (withStoredUsage db chat v) chat =
      (findSub db chat).map (fun s => { s with transactions_used := v }) := by
  unfold findSub withStoredUsage
  induction db.subscriptions with
  | nil => rfl
  | cons a l ih =>
    by_cases h : a.chat_id = chat
    · simp [List.find?_cons, h]
    · simpa [List.find?_cons, h] using ih

/-- C3: for a chat on the free tier, `canProcess` allows iff the live count of
the chat's ledger rows created since local midnight is strictly below 5, and
reports that live count as `used`; the decision is invariant under arbitrary
changes to the subscription row's stored usage counter (it is never read). -/
theorem canProcess_free_uses_live_count (db : DB) (env : Env) (chat : Int)
    (s : Subscription)
    (hfind : findSub db chat = some s) (hplan : s.plan = .free) :
    ((canProcess db env chat).2.allowed = true ↔ getTodayTransactionCount db env chat < 5)
    ∧ (canProcess db env chat).2.used = getTodayTransactionCount db env chat
    ∧ ∀ v : Int, (canProcess (withStoredUsage db chat v) env chat).2 = (canProcess db env chat).2 := by
  have hfields := canProcess_free_fields db env chat s hfind hplan
  refine ⟨?_, hfields.2.2.2.2, ?_⟩
  · rw [hfields.2.2.2.1]
    simp
  · intro v
    have hfind' : findSub (withStoredUsage db chat v) chat =
        some { s with transactions_used := v } := by
      rw [findSub_withStoredUsage, hfind]
      rfl
    have hcnt : getTodayTransactionCount (withStoredUsage db chat v) env chat =
        getTodayTransactionCount db env chat := rfl
    rw [canProcess_free_eq (withStoredUsage db chat v) env chat _ hfind' hplan,
        canProcess_free_eq db env chat s hfind hplan]
    rw [hcnt]

/-- A free subscription for chat 7 whose stored counter is stale (999). -/
def subF : Subscription :=
  { id := 1, chat_id := 7, plan := .free, transactions_used := 999,
    period_start := 0, period_end := none, created_at := 0 }

def dbF : DB :=
  { transactions := [txnW], subscriptions := [subF], nextTxnId := 10, nextSubId := 2 }

/-- Witness for `canProcess_free_uses_live_count` at `dbF` / `envW`: one live
row today, so the decision allows with `used = 1` even though the stored
counter says 999, and zeroing that counter changes nothing. -/
theorem canProcess_free_uses_live_count_witness :
    (canProcess dbF envW 7).2.allowed = true
    ∧ (canProcess dbF envW 7).2.used = 1
    ∧ (canProcess (withStoredUsage dbF 7 0) envW 7).2 = (canProcess dbF envW 7).2 := by
  have h := canProcess_free_uses_live_count dbF envW 7 subF (by decide) rfl
  refine ⟨h.1.mpr (by decide), ?_, h.2.2 0⟩
  rw [h.2.1]
  decide

theorem canProcessTail_fst (db : DB) (env : Env) (chat : Int) (sub : Subscription) :
    (canProcessTail db env chat sub).1 = db := by
  simp only [canProcessTail]
  split_ifs <;> rfl

theorem getOrCreateSubscription_fst_transactions (db : DB) (env : Env) (chat : Int) :
    (getOrCreateSubscription db env chat).1.transactions = db.transactions := by
  unfold getOrCreateSubscription
  cases findSub db chat <;> rfl

theorem canProcess_fst_transactions (db : DB) (env : Env) (chat : Int) :
    (canProcess db env chat).1.transactions = db.transactions := by
  have hget := getOrCreateSubscription_fst_transactions db env chat
  unfold canProcess
  cases hg : getOrCreateSubscription db env chat with
  | mk db0 sub =>
    have hdb0 : db0.transactions = db.transactions := by rw [← hget, hg]
    simp only []
    repeat' split
    all_goals simp [canProcessTail_fst, downgradeToFree, hdb0]

theorem incrementUsage_transactions (db : DB) (env : Env) (chat : Int) :
    (incrementUsage db env chat).transactions = db.transactions := by
  unfold incrementUsage getOrCreateSubscription
  cases findSub db chat <;> simp only [] <;> split <;> rfl

theorem incrementUsage_free (db : DB) (env : Env) (chat : Int) (s : Subscription)
    (hfind : findSub db chat = some s) (hplan : s.plan = .free) :
    incrementUsage db env chat = db := by
  unfold incrementUsage
  rw [getOrCreateSubscription_of_found hfind]
  simp [hplan]

/-- C4: the pipeline never partially commits. If extraction yields no amount,
the final state is exactly the gate-output state: no ledger row is appended
and no usage increment happens (the ledger in particular equals the initial
ledger). The increment runs only on the post-append state: whenever the
outcome is `saved t`, the final ledger is the gate-output ledger extended by
exactly `t`. And `incrementUsage` is the identity on any state in which the
chat's plan is `free` — free-tier stored counters are never incremented. -/
theorem pipeline_no_partial_commit (db : DB) (env : Env) (chat : Int)
    (fileId : String) (ocr : ExtractionResult) :
    (ocr.amount = none →
      (processImage db env chat fileId ocr).1 = (canProcess db env chat).1
      ∧ (processImage db env chat fileId ocr).1.transactions = db.transactions)
    ∧ (∀ t, (processImage db env chat fileId ocr).2 = .saved t →
        (processImage db env chat fileId ocr).1.transactions
          = (canProcess db env chat).1.transactions ++ [t])
    ∧ (∀ db' : DB, ∀ s : Subscription, findSub db' chat = some s → s.plan = .free →
        incrementUsage db' env chat = db') := by
  refine ⟨?_, ?_, fun db' s hf hp => incrementUsage_free db' env chat s hf hp⟩
  · intro hnone
    unfold processImage
    cases hc : canProcess db env chat with
    | mk db1 check =>
      have hdb1 : db1.transactions = db.transactions := by
        rw [← canProcess_fst_transactions db env chat, hc]
      simp only []
      split
      · exact ⟨rfl, hdb1⟩
      · split
        · exact ⟨rfl, hdb1⟩
        · rw [hnone]
          exact ⟨rfl, hdb1⟩
  · intro t hsaved
    unfold processImage at hsaved ⊢
    cases hc : canProcess db env chat with
    | mk db1 check =>
      rw [hc] at hsaved
      simp only [] at hsaved ⊢
      split at hsaved
      · exact absurd hsaved (by simp)
      · split at hsaved
        · exact absurd hsaved (by simp)
        · cases ha : ocr.amount with
          | none => rw [ha] at hsaved; exact absurd hsaved (by simp)
          | some a =>
            rw [ha] at hsaved
            simp only [PipelineOutcome.saved.injEq] at hsaved
            rename_i hallow hdup
            rw [if_neg hallow, if_neg hdup]
            show (incrementUsage (saveTransaction db1 env chat a ocr.bank ocr.clientName
              fileId ocr.rawResponse).1 env chat).transactions = db1.transactions ++ [t]
            rw [incrementUsage_transactions, ← hsaved]
            rfl

/-- An extraction result with no amount (extraction failure). -/
def ocrFail : ExtractionResult :=
  { amount := none, bank := none, clientName := none, rawResponse := "nope" }

/-- An extraction result with amount 25. -/
def ocrOk : ExtractionResult :=
  { amount := some 25, bank := some "Nubank", clientName := none, rawResponse := "ok" }

/-- Witness for `pipeline_no_partial_commit` at `dbF` / `envW`: a failed
extraction leaves the ledger untouched, and a successful run for a fresh file
appends exactly the saved row. -/
theorem pipeline_no_partial_commit_witness :
    (processImage dbF envW 7 "g" ocrFail).1.transactions = dbF.transactions
    ∧ (processImage dbF envW 7 "g" ocrOk).1.transactions
        = (canProcess dbF envW 7).1.transactions
            ++ [{ id := 10, chat_id := 7, amount := 25, bank_detected := some "Nubank",
                  client_name := none, telegram_file_id := "g", raw_response := "ok",
                  created_at := envW.now }]
    ∧ incrementUsage dbF envW 7 = dbF := by
  refine ⟨(pipeline_no_partial_commit dbF envW 7 "g" ocrFail).1 rfl |>.2, ?_, ?_⟩
  · exact (pipeline_no_partial_commit dbF envW 7 "g" ocrOk).2.1 _ (by decide)
  · exact (pipeline_no_partial_commit dbF envW 7 "g" ocrOk).2.2 dbF subF (by decide) rfl

/-! ### C5 fixture: an expired basico chat at the free daily limit, submitting
a file that is already in its ledger. -/

def mkTodayTxn (i : Int) (fileId : String) : Txn :=
  { id := i, chat_id := 9, amount := 10, bank_detected := none, client_name := none,
    telegram_file_id := fileId, raw_response := "r", created_at := 100 * dayMs + i }

/-- Chat 9's ledger: five rows today, one of them for file "dup". -/
def dupTxns : List Txn :=
  [mkTodayTxn 20 "dup", mkTodayTxn 21 "a2", mkTodayTxn 22 "a3",
   mkTodayTxn 23 "a4", mkTodayTxn 24 "a5"]

/-- An expired basico subscription for chat 9 (period ended 40 days ago). -/
def subX : Subscription :=
  { id := 4, chat_id := 9, plan := .basico, transactions_used := 3,
    period_start := 0, period_end := some (60 * dayMs), created_at := 0 }

def dbX : DB :=
  { transactions := dupTxns, subscriptions := [subX], nextTxnId := 30, nextSubId := 5 }

/-- C5: the pipeline evaluates the usage gate (`canProcess`) before the
duplicate check, contrary to the documented sequence (duplicate check first).
Concretely: chat 9 resubmits the already-registered file "dup" while its
subscription is expired and its free-tier daily count is at the limit; the
code answers with the gate rejection (`expired = true`), not the duplicate
rejection, and performs the gate's downgrade side effect on the stored row. -/
theorem pipeline_gate_runs_before_duplicate_check :
    isDuplicate dbX 9 "dup" = true
    ∧ (processImage dbX envW 9 "dup" ocrOk).2 =
        .rejectedByGate { allowed := false, plan := .free, used := 5, limit := some 5,
                          expired := some true,
                          message := some (.expiredDowngraded "Básico") }
    ∧ (processImage dbX envW 9 "dup" ocrOk).2 ≠ .rejectedDuplicate
    ∧ findSub (processImage dbX envW 9 "dup" ocrOk).1 9 =
        some { subX with plan := .free, transactions_used := 0, period_end := none } := by
  refine ⟨by decide, by decide, by decide, by decide⟩

/-- An extraction result carrying a non-positive amount. -/
def ocrNeg : ExtractionResult :=
  { amount := some (-1), bank := none, clientName := none, rawResponse := "neg" }

/-- C8 counterexample: the pipeline's append path only checks that the
extracted amount is non-null, so a non-null, non-positive extracted amount
(-1) is stored in the ledger, violating `amount > 0`. -/
theorem pipeline_accepts_nonpositive_amount :
    (processImage dbF envW 7 "neg" ocrNeg).2 =
        .saved { id := 10, chat_id := 7, amount := -1, bank_detected := none,
                 client_name := none, telegram_file_id := "neg", raw_response := "neg",
                 created_at := envW.now }
    ∧ (processImage dbF envW 7 "neg" ocrNeg).1.transactions.any
        (fun t => decide (t.amount ≤ 0)) = true := by
  refine ⟨by decide, by decide⟩

theorem updateLastTransactionAmount_amount (db : DB) (env : Env) (chat : Int)
    (a : Rat) (t : Txn)
    (h : (updateLastTransactionAmount db env chat a).2 = some t) : t.amount = a := by
  unfold updateLastTransactionAmount at h
  simp only [] at h
  cases hh : (List.insertionSort descByTime (db.transactions.filter (todayPred env chat))).head? with
  | none => rw [hh] at h; exact absurd h (by simp)
  | some lastTx =>
    rw [hh] at h
    simp only [Option.some.injEq] at h
    rw [← h]

/-- C8 amended: only the `/editar` path establishes `amount > 0` before
writing (it rejects a missing or non-positive parsed amount without touching
the store, and an accepted edit writes exactly the validated amount); the
pipeline's append path establishes only that the extracted amount is
non-null — a saved row's amount is whatever the extraction returned. -/
theorem amount_positive_only_on_edit_path (db : DB) (env : Env) (chat : Int) :
    (∀ a : Rat, a ≤ 0 → editarCommand db env chat (some a) = (db, .invalidAmount))
    ∧ editarCommand db env chat none = (db, .invalidAmount)
    ∧ (∀ a : Rat, 0 < a → ∀ t, (editarCommand db env chat (some a)).2 = .edited t →
        t.amount = a)
    ∧ (∀ fileId : String, ∀ ocr : ExtractionResult, ∀ t : Txn,
        (processImage db env chat fileId ocr).2 = .saved t → ocr.amount = some t.amount) := by
  refine ⟨?_, rfl, ?_, ?_⟩
  · intro a ha
    unfold editarCommand
    simp [ha]
  · intro a ha t h
    unfold editarCommand at h
    simp only [] at h
    rw [if_neg (not_le.mpr ha)] at h
    cases hu : updateLastTransactionAmount db env chat a with
    | mk db2 r =>
      rw [hu] at h
      cases r with
      | none => exact absurd h (by simp)
      | some t2 =>
        simp only [EditOutcome.edited.injEq] at h
        rw [← h]
        exact updateLastTransactionAmount_amount db env chat a t2 (by rw [hu])
  · intro fileId ocr t hsaved
    unfold processImage at hsaved
    cases hc : canProcess db env chat with
    | mk db1 check =>
      rw [hc] at hsaved
      simp only [] at hsaved
      split at hsaved
      · exact absurd hsaved (by simp)
      · split at hsaved
        · exact absurd hsaved (by simp)
        · cases ha : ocr.amount with
          | none => rw [ha] at hsaved; exact absurd hsaved (by simp)
          | some a =>
            rw [ha] at hsaved
            simp only [PipelineOutcome.saved.injEq] at hsaved
            rw [← hsaved]
            rfl

/-- Witness for `amount_positive_only_on_edit_path` at concrete inputs: a
non-positive `/editar` argument is rejected with no state change, an accepted
edit writes the validated amount, and a saved pipeline row carries exactly
the extracted amount. -/
theorem amount_positive_only_on_edit_path_witness :
    editarCommand dbF envW 7 (some (-2)) = (dbF, .invalidAmount)
    ∧ ({ txnW with amount := 50 } : Txn).amount = 50
    ∧ ocrOk.amount = some (25 : Rat) := by
  have h := amount_positive_only_on_edit_path dbF envW 7
  refine ⟨h.1 (-2) (by norm_num), ?_, ?_⟩
  · exact h.2.2.1 50 (by norm_num) { txnW with amount := 50 } (by decide)
  · have := h.2.2.2 "g" ocrOk
      { id := 10, chat_id := 7, amount := 25, bank_detected := some "Nubank",
        client_name := none, telegram_file_id := "g", raw_response := "ok",
        created_at := envW.now } (by decide)
    simpa using this

theorem filter_idNe_eq_erase (l : List Txn) (a : Txn)
    (hn : (l.map Txn.id).Nodup) (ha : a ∈ l) :
    l.filter (fun t => decide (¬ t.id = a.id)) = l.erase a := by
  induction l with
  | nil => cases ha
  | cons b l ih =>
    rw [List.map_cons, List.nodup_cons] at hn
    rcases List.mem_cons.mp ha with hba | hal
    · subst hba
      rw [List.erase_cons_head]
      rw [List.filter_cons_of_neg (by simp)]
      exact List.filter_eq_self.mpr
        (fun t ht => by
          simp only [decide_eq_true_eq]
          exact fun heq => hn.1 (heq ▸ List.mem_map_of_mem Txn.id ht))
    · have hbne : ¬ b.id = a.id := fun heq => hn.1 (heq ▸ List.mem_map_of_mem Txn.id hal)
      have hne : ¬ (b == a) = true := by
        simp only [beq_iff_eq]
        exact fun hba => hbne (by rw [hba])
      rw [List.filter_cons_of_pos (by simpa using hbne), List.erase_cons_tail hne,
        ih hn.2 hal]

/-- C6: `deleteTransactionByIndex` over today's ascending list `L`: for a
1-based position `k` in `[1, |L|]` it removes exactly the k-th element of `L`
from the ledger and returns that row's prior contents; for `k ≤ 0` or
`k > |L|` it removes nothing and returns none; and calling with no position
behaves exactly like `k = |L|` (delete the most recent). -/
theorem deleteTransactionByIndex_spec (db : DB) (env : Env) (chat : Int)
    (hn : (db.transactions.map Txn.id).Nodup) :
    (∀ k : Int, 1 ≤ k → k ≤ ((getTodayTransactions db env chat).length : Int) →
      ∃ tgt, (getTodayTransactions db env chat).get? (k - 1).toNat = some tgt
        ∧ deleteTransactionByIndex db env chat (some k)
            = ({ db with transactions := db.transactions.erase tgt }, some tgt))
    ∧ (∀ k : Int, (k ≤ 0 ∨ ((getTodayTransactions db env chat).length : Int) < k) →
        deleteTransactionByIndex db env chat (some k) = (db, none))
    ∧ deleteTransactionByIndex db env chat none
        = deleteTransactionByIndex db env chat
            (some ((getTodayTransactions db env chat).length : Int)) := by
  refine ⟨?_, ?_, ?_⟩
  · intro k h1 h2
    have hlen : (k - 1).toNat < (getTodayTransactions db env chat).length := by omega
    have hget := List.get?_eq_get hlen
    refine ⟨(getTodayTransactions db env chat).get ⟨(k - 1).toNat, hlen⟩, hget, ?_⟩
    have htgtL : (getTodayTransactions db env chat).get ⟨(k - 1).toNat, hlen⟩
        ∈ getTodayTransactions db env chat := List.get_mem _ _ _
    have htgtDb : (getTodayTransactions db env chat).get ⟨(k - 1).toNat, hlen⟩
        ∈ db.transactions := by
      unfold getTodayTransactions at htgtL
      exact (List.mem_filter.mp ((List.mem_insertionSort ascByTime).mp htgtL)).1
    have hnE : (getTodayTransactions db env chat).isEmpty = false := by
      rcases h : (getTodayTransactions db env chat).isEmpty with _ | _
      · rfl
      · rw [List.isEmpty_iff] at h
        rw [h] at h2
        simp at h2
        omega
    unfold deleteTransactionByIndex
    simp only []
    rw [hnE]
    simp only [Bool.false_eq_true, if_false]
    rw [if_neg (by push_neg; omega)]
    rw [hget]
    simp only []
    rw [filter_idNe_eq_erase db.transactions _ hn htgtDb]
  · intro k hk
    have hcond : k - 1 < 0 ∨ ((getTodayTransactions db env chat).length : Int) ≤ k - 1 := by
      rcases hk with hk | hk
      · exact Or.inl (by omega)
      · exact Or.inr (by omega)
    unfold deleteTransactionByIndex
    simp only []
    rcases h : (getTodayTransactions db env chat).isEmpty with _ | _
    · simp only [Bool.false_eq_true, if_false]
      rw [if_pos hcond]
    · simp
  · unfold deleteTransactionByIndex
    simp only []

/-- Witness for `deleteTransactionByIndex_spec` at `dbX` / chat 9: position 1
removes the oldest of the five rows (the one with id 20), position 6 is out
of range, and omitting the position equals deleting position 5. -/
theorem deleteTransactionByIndex_spec_witness :
    deleteTransactionByIndex dbX envW 9 (some 1)
      = ({ dbX with transactions := dbX.transactions.erase (mkTodayTxn 20 "dup") },
         some (mkTodayTxn 20 "dup"))
    ∧ deleteTransactionByIndex dbX envW 9 (some 6) = (dbX, none)
    ∧ deleteTransactionByIndex dbX envW 9 none = deleteTransactionByIndex dbX envW 9 (some 5) := by
  have h := deleteTransactionByIndex_spec dbX envW 9 (by decide)
  obtain ⟨tgt, hg, he⟩ := h.1 1 (by decide) (by decide)
  have h0 : (getTodayTransactions dbX envW 9).get? ((1 : Int) - 1).toNat
      = some (mkTodayTxn 20 "dup") := by decide
  have htgt : tgt = mkTodayTxn 20 "dup" := Option.some_inj.mp (hg.symm.trans h0)
  refine ⟨htgt ▸ he, h.2.1 6 (by decide), ?_⟩
  have h3 := h.2.2
  rwa [show (((getTodayTransactions dbX envW 9).length : Int)) = 5 by decide] at h3

instance : IsTrans Txn descByTime :=
  ⟨fun _ _ _ hab hbc => le_trans hbc hab⟩

instance : IsTotal Txn descByTime :=
  ⟨fun a b => le_total b.created_at a.created_at⟩

/-- C7: `updateLastTransactionAmount` on a chat with at least one transaction
today updates the chronologically last of today's rows (its `created_at` is
maximal among them): the stored table becomes the old table with only that
row's amount overwritten (`t = lastTx` is replaced by `lastTx` with the new
amount; every other row is mapped to itself), the subscriptions table is
untouched, and the updated row — identical to the old one except for the
amount — is returned. With no transaction today it returns none and changes
nothing. -/
theorem updateLastTransactionAmount_spec (db : DB) (env : Env) (chat : Int)
    (newAmount : Rat) (hn : (db.transactions.map Txn.id).Nodup) :
    (db.transactions.filter (todayPred env chat) = [] →
      updateLastTransactionAmount db env chat newAmount = (db, none))
    ∧ (∀ lastTx,
        (List.insertionSort descByTime (db.transactions.filter (todayPred env chat))).head?
          = some lastTx →
        lastTx ∈ db.transactions.filter (todayPred env chat)
        ∧ (∀ t ∈ db.transactions.filter (todayPred env chat),
            t.created_at ≤ lastTx.created_at)
        ∧ updateLastTransactionAmount db env chat newAmount
            = ({ db with transactions :=
                  db.transactions.map (fun t =>
                    if t = lastTx then { lastTx with amount := newAmount } else t) },
               some { lastTx with amount := newAmount })) := by
  constructor
  · intro hempty
    unfold updateLastTransactionAmount
    simp only []
    rw [hempty]
    rfl
  · intro lastTx hh
    cases hs : List.insertionSort descByTime (db.transactions.filter (todayPred env chat)) with
    | nil => rw [hs] at hh; exact absurd hh (by simp)
    | cons x tl =>
      rw [hs] at hh
      simp only [List.head?_cons, Option.some.injEq] at hh
      rw [hh] at hs
      have hmemSorted : lastTx ∈ List.insertionSort descByTime
          (db.transactions.filter (todayPred env chat)) := by
        rw [hs]; exact List.mem_cons_self _ _
      have hmemFilter : lastTx ∈ db.transactions.filter (todayPred env chat) :=
        (List.mem_insertionSort descByTime).mp hmemSorted
      have hmemDb : lastTx ∈ db.transactions := (List.mem_filter.mp hmemFilter).1
      have hsorted : List.Sorted descByTime (lastTx :: tl) := by
        rw [← hs]
        exact List.sorted_insertionSort descByTime _
      refine ⟨hmemFilter, ?_, ?_⟩
      · intro t ht
        have : t ∈ List.insertionSort descByTime
            (db.transactions.filter (todayPred env chat)) :=
          (List.mem_insertionSort descByTime).mpr ht
        rw [hs] at this
        rcases List.mem_cons.mp this with heq | htl
        · rw [heq]
        · exact List.rel_of_sorted_cons hsorted t htl
      · have hinj := List.inj_on_of_nodup_map hn
        unfold updateLastTransactionAmount
        simp only []
        rw [hs]
        simp only [List.head?_cons]
        have hmapeq : db.transactions.map (fun t =>
              if t.id = lastTx.id then { t with amount := newAmount } else t)
            = db.transactions.map (fun t =>
              if t = lastTx then { lastTx with amount := newAmount } else t) := by
          refine List.map_congr_left (fun t ht => ?_)
          by_cases hid : t.id = lastTx.id
          · have : t = lastTx := hinj ht hmemDb hid
            rw [if_pos hid, if_pos this, this]
          · have : t ≠ lastTx := fun heq => hid (by rw [heq])
            rw [if_neg hid, if_neg this]
        rw [hmapeq]

/-- Witness for `updateLastTransactionAmount_spec` at `dbX` / chat 9 with new
amount 77: the newest row (id 24) is the one rewritten and returned. -/
theorem updateLastTransactionAmount_spec_witness :
    updateLastTransactionAmount dbX envW 9 77
      = ({ dbX with transactions :=
            dbX.transactions.map (fun t =>
              if t = mkTodayTxn 24 "a5" then { mkTodayTxn 24 "a5" with amount := 77 } else t) },
         some { mkTodayTxn 24 "a5" with amount := 77 })
    ∧ (∀ t ∈ dbX.transactions.filter (todayPred envW 9),
        t.created_at ≤ (mkTodayTxn 24 "a5").created_at) := by
  have h := (updateLastTransactionAmount_spec dbX envW 9 77 (by decide)).2
    (mkTodayTxn 24 "a5") (by decide)
  exact ⟨h.2.2, h.2.1⟩

/-- C10: `resetMonthlyUsage` maps every non-free subscription row to the same
row with usage 0 and period start `now`, leaves every free row entirely
unchanged, preserves every row's `period_end` (paid expiry dates are
unaffected), touches no other table, and returns the number of non-free rows
(the rows it updated). -/
theorem resetMonthlyUsage_spec (db : DB) (env : Env) :
    (resetMonthlyUsage db env).1.transactions = db.transactions
    ∧ (∀ i : Nat, (resetMonthlyUsage db env).1.subscriptions.get? i =
        (db.subscriptions.get? i).map (fun s =>
          if s.plan = .free then s
          else { s with transactions_used := 0, period_start := env.now }))
    ∧ (∀ i : Nat, ((resetMonthlyUsage db env).1.subscriptions.get? i).map Subscription.period_end
        = (db.subscriptions.get? i).map Subscription.period_end)
    ∧ (∀ s ∈ db.subscriptions, s.plan = .free →
        s ∈ (resetMonthlyUsage db env).1.subscriptions)
    ∧ (resetMonthlyUsage db env).2
        = ((db.subscriptions.filter (fun s => decide (¬ s.plan = .free))).length : Int) := by
  have h2 : ∀ i : Nat, (resetMonthlyUsage db env).1.subscriptions.get? i =
      (db.subscriptions.get? i).map (fun s =>
        if s.plan = .free then s
        else { s with transactions_used := 0, period_start := env.now }) := by
    intro i
    show (db.subscriptions.map _).get? i = _
    rw [List.get?_map]
  refine ⟨rfl, h2, ?_, ?_, rfl⟩
  · intro i
    rw [h2 i]
    cases db.subscriptions.get? i with
    | none => rfl
    | some s =>
      by_cases hp : s.plan = PlanType.free
      · simp [hp]
      · simp [hp]
  · intro s hs hp
    show s ∈ db.subscriptions.map _
    have heq : (fun x : Subscription =>
        if x.plan = PlanType.free then x
        else { x with transactions_used := 0, period_start := env.now }) s = s := by
      simp [hp]
    exact heq ▸ List.mem_map_of_mem _ hs

/-- Witness for `resetMonthlyUsage_spec` at `dbW` / `envW`: the single basico
row gets usage 0 and a fresh period start, its period end survives, and the
reported update count is 1. -/
theorem resetMonthlyUsage_spec_witness :
    (resetMonthlyUsage dbW envW).1.subscriptions.get? 0
      = some { subW with transactions_used := 0, period_start := envW.now }
    ∧ ((resetMonthlyUsage dbW envW).1.subscriptions.get? 0).map Subscription.period_end
      = some (some (60 * dayMs))
    ∧ (resetMonthlyUsage dbW envW).2 = 1 := by
  have h := resetMonthlyUsage_spec dbW envW
  refine ⟨?_, ?_, ?_⟩
  · rw [h.2.1 0]
    decide
  · rw [h.2.2.1 0]
    decide
  · rw [h.2.2.2.2]
    decide

/-- A stand-in for the external HMAC-SHA256 hex digest: like the real one, it
returns 64 (one-byte) characters. -/
def hmac64 : List Char → List Char → List Char := fun _ _ => List.replicate 64 'a'

/-- C9 counterexample: with a configured secret and a well-formed header whose
`v1` has a byte length different from the digest's, `validateWebhookSignature`
does not return false — `crypto.timingSafeEqual` throws on buffers of unequal
length, so the call raises instead. -/
theorem validateWebhookSignature_throws_on_length_mismatch :
    validateWebhookSignature hmac64 (some "k".data) (some "ts=1,v1=abc".data)
        (some "rid".data) "42".data = .error ()
    ∧ validateWebhookSignature hmac64 (some "k".data) (some "ts=1,v1=abc".data)
        (some "rid".data) "42".data ≠ .ok false := by
  have h : validateWebhookSignature hmac64 (some "k".data) (some "ts=1,v1=abc".data)
      (some "rid".data) "42".data = .error () := by rfl
  refine ⟨h, ?_⟩
  rw [h]
  simp

/-- C9 amended: `validateWebhookSignature` accepts everything when no secret
is configured; with a secret it returns false for a missing header or a
header from which no `ts`/`v1` can be parsed; and for a parsed `v1` it
returns the constant-time comparison against the HMAC hex digest of
`id:<dataId>;request-id:<requestId>;ts:<ts>;` when the byte lengths agree —
but throws (propagating `timingSafeEqual`'s length error) when `v1`'s byte
length differs from the digest's. -/
theorem validateWebhookSignature_amended (hmac : List Char → List Char → List Char)
    (sec xReq dataId : List Char) (hs : sec ≠ []) (hreq : xReq ≠ []) :
    (∀ xSig xReqId, validateWebhookSignature hmac none xSig xReqId dataId = .ok true)
    ∧ validateWebhookSignature hmac (some sec) none (some xReq) dataId = .ok false
    ∧ (∀ xSig, validateWebhookSignature hmac (some sec) (some xSig) none dataId = .ok false)
    ∧ (∀ xSig, xSig ≠ [] →
        lookupLast (parseSignatureHeader xSig) "ts".data = none
          ∨ lookupLast (parseSignatureHeader xSig) "v1".data = none →
        validateWebhookSignature hmac (some sec) (some xSig) (some xReq) dataId = .ok false)
    ∧ (∀ xSig ts v1, xSig ≠ [] → ts ≠ [] → v1 ≠ [] →
        lookupLast (parseSignatureHeader xSig) "ts".data = some ts →
        lookupLast (parseSignatureHeader xSig) "v1".data = some v1 →
        validateWebhookSignature hmac (some sec) (some xSig) (some xReq) dataId
          = (if utf8Len v1 = utf8Len (hmac sec (signatureManifest dataId xReq ts))
             then .ok (decide (v1 = hmac sec (signatureManifest dataId xReq ts)))
             else .error ())) := by
  refine ⟨?_, ?_, ?_, ?_, ?_⟩
  · intro xSig xReqId
    rfl
  · unfold validateWebhookSignature
    simp only []
    rw [if_neg hs]
  · intro xSig
    unfold validateWebhookSignature
    simp only []
    rw [if_neg hs]
  · intro xSig hsig hnone
    unfold validateWebhookSignature
    simp only []
    rw [if_neg hs]
    rw [if_neg (by push_neg; exact ⟨hsig, hreq⟩)]
    rcases hnone with hnone | hnone
    · rw [hnone]
    · rw [hnone]
      cases lookupLast (parseSignatureHeader xSig) "ts".data <;> rfl
  · intro xSig ts v1 hsig hts hv1 hlt hlv
    unfold validateWebhookSignature
    simp only []
    rw [if_neg hs]
    rw [if_neg (by push_neg; exact ⟨hsig, hreq⟩), hlt, hlv]
    simp only []
    rw [if_neg (by push_neg; exact ⟨hts, hv1⟩)]
    rfl

/-- A header whose `v1` matches the stand-in digest exactly. -/
def xSigGood : List Char := "ts=1,v1=".data ++ List.replicate 64 'a'

/-- Witness for `validateWebhookSignature_amended` with the stand-in digest:
the matching 64-byte `v1` is accepted, a 1-byte `v1` makes the call throw,
and a missing header is rejected with false. -/
theorem validateWebhookSignature_amended_witness :
    validateWebhookSignature hmac64 (some "k".data) (some xSigGood) (some "r".data)
        "42".data = .ok true
    ∧ validateWebhookSignature hmac64 (some "k".data) (some "ts=1,v1=b".data)
        (some "r".data) "42".data = .error ()
    ∧ validateWebhookSignature hmac64 (some "k".data) none (some "r".data)
        "42".data = .ok false := by
  have h := validateWebhookSignature_amended hmac64 "k".data "r".data "42".data
    (by decide) (by decide)
  refine ⟨?_, ?_, h.2.1⟩
  · have h5 := h.2.2.2.2 xSigGood "1".data (List.replicate 64 'a')
      (by decide) (by decide) (by decide) (by decide) (by decide)
    rw [if_pos (by decide)] at h5
    rw [show decide (List.replicate 64 'a'
        = hmac64 "k".data (signatureManifest "42".data "r".data "1".data)) = true
      from by decide] at h5
    exact h5
  · have h5 := h.2.2.2.2 "ts=1,v1=b".data "1".data "b".data
      (by decide) (by decide) (by decide) (by decide) (by decide)
    rw [if_neg (by decide)] at h5
    exact h5

end PixTotalizer
